import Mathlib

/-!
Shallow embedding of the `alerts` Django app (CodexRFA): conditional-question
visibility, red-flag matching, localization fallback, patient-id derivation,
record-id generation and the notification pipeline, as implemented in
`alerts/views.py`, `alerts/models.py` and `alerts/email_utils.py`.

Machine-level conventions: Python dicts over string keys are insertion-ordered
association lists; Django `QueryDict` POST data is a map from keys to the list
of submitted values (absent key = empty list, `get` returns the last value);
Python runtime exceptions surface as `Except PyErr`.
-/

namespace CodexRFA

/-- A value stored in the `answers` dict built by `patient_form` in
`alerts/views.py`: a string (text/select answers), a list of strings
(multi-select answers via `getlist`), or Python `None` (a select question
whose POST key is absent, since `request.POST.get(key)` returns `None`). -/
inductive PyVal where
  | vstr (s : String)
  | vlist (l : List String)
  | vnone
  deriving DecidableEq, Repr

/-- Python runtime exceptions that the embedded code can raise. -/
inductive PyErr where
  | typeError
  | nameError
  | attributeError
  | integrityError
  deriving DecidableEq, Repr

deriving instance DecidableEq for Except

/-- Insertion-ordered Python dict with string keys (the `answers` dict). -/
abbrev AnswerMap := List (String × PyVal)

/-- Python `d.get(k)` / `d[k]`: the value at the first matching key. -/
def dictGet : AnswerMap → String → Option PyVal
  | [], _ => none
  | p :: t, k => if p.1 = k then some p.2 else dictGet t k

/-- Python `d[k] = v`: update the existing entry in place, else append. -/
def dictSet (m : AnswerMap) (k : String) (v : PyVal) : AnswerMap :=
  if (dictGet m k).isSome then
    m.map (fun p => if p.1 = k then (k, v) else p)
  else m ++ [(k, v)]

/-- One row of `QuestionTranslation` (language code and text), from
`alerts/models.py`. -/
structure QuestionTranslationRow where
  language : String
  question_text : String
  deriving DecidableEq, Repr

/-- A `Question` row from `alerts/models.py` together with its related
`QuestionCondition` rows (as the trigger options' `option_id`s, which is all
`_question_conditions_met` reads from them) and its `QuestionTranslation`
rows. `parent_question` is the parent's `question_id`. -/
structure Question where
  question_id : String
  question_type : String
  parent_question : Option String
  shows_text_field : Bool
  conditions : List String
  translations : List QuestionTranslationRow
  deriving DecidableEq, Repr

/-- Faithful translation of `_question_conditions_met` (alerts/views.py
lines 109-118).  If the parent's recorded answer is Python `None` (an
unanswered select question), `any(opt in trigger_options for opt in None)`
raises `TypeError`. -/
def question_conditions_met (q : Question) (answers : AnswerMap) :
    Except PyErr Bool :=
  match q.parent_question with
  | none => .ok true
  | some pid =>
    if q.conditions.isEmpty then .ok true
    else
      match (dictGet answers pid).getD (.vlist []) with
      | .vstr s => .ok ([s].any (fun opt => q.conditions.contains opt))
      | .vlist l => .ok (l.any (fun opt => q.conditions.contains opt))
      | .vnone => .error .typeError

/-- Django POST data (`request.POST`, a `QueryDict`): each key maps to the
list of submitted values; an absent key maps to `[]`. -/
abbrev Post := String → List String

/-- Django `QueryDict.getlist(key)`: all values for the key (default `[]`). -/
def postGetlist (post : Post) (k : String) : List String := post k

/-- Django `QueryDict.get(key)`: the last submitted value, or `None`. -/
def postGet (post : Post) (k : String) : Option String := (post k).getLast?

/-- Django `QueryDict.get(key, default)` with a string default. -/
def postGetD (post : Post) (k : String) (d : String) : String :=
  (postGet post k).getD d

/-- One iteration of the answer-collection loop in the POST branch of
`patient_form` (alerts/views.py lines 136-148): skip the question when its
visibility conditions are not met, otherwise record its answer under its
`question_id` (text questions get `""` as default, select questions get the
raw `.get` result which may be `None`, everything else gets `getlist`), and
record the companion free-text value under `"<question_id>_text"` when
`shows_text_field` is set. -/
def processQuestion (post : Post) (answers : AnswerMap) (q : Question) :
    Except PyErr AnswerMap := do
  let met ← question_conditions_met q answers
  if !met then
    return answers
  else
    let key := "q_" ++ q.question_id
    let answers :=
      if q.question_type == "text" then
        dictSet answers q.question_id (.vstr (postGetD post key ""))
      else if q.question_type == "select" then
        match postGet post key with
        | some s => dictSet answers q.question_id (.vstr s)
        | none => dictSet answers q.question_id .vnone
      else
        dictSet answers q.question_id (.vlist (postGetlist post key))
    if q.shows_text_field then
      return dictSet answers (q.question_id ++ "_text")
        (.vstr (postGetD post (key ++ "_text") ""))
    else
      return answers

/-- The whole answer-collection loop of `patient_form`, starting from the
empty `answers` dict. -/
def buildAnswers (post : Post) (questions : List Question) :
    Except PyErr AnswerMap :=
  questions.foldlM (processQuestion post) []

/-- The slice of the catalog that red-flag matching reads: the set of
existing `QuestionOption.option_id`s and the `OptionRedFlagMap` rows as
(option_id, red_flag_id) pairs. -/
structure Catalog where
  options : List String
  optionRedFlagMap : List (String × String)
  deriving DecidableEq, Repr

/-- Python truthiness of an `answers` value (`if not value: continue`). -/
def truthy : PyVal → Bool
  | .vstr s => !s.isEmpty
  | .vlist l => !l.isEmpty
  | .vnone => false

/-- The option-id candidates of a recorded value:
`value if isinstance(value, list) else [value]`.  (`vnone` is unreachable
here behind the truthiness guard; `[None]` would contribute nothing since
`None` matches no `option_id`, so it is rendered as `[]`.) -/
def selectedOptions : PyVal → List String
  | .vstr s => [s]
  | .vlist l => l
  | .vnone => []

/-- The red-flag ids contributed by one candidate option id:
`QuestionOption.objects.get(option_id=...)` raising `DoesNotExist` is
caught and skips the option, otherwise the `OptionRedFlagMap` rows for the
option are collected (alerts/views.py lines 156-163). -/
def optionFlags (cat : Catalog) (optId : String) : Finset String :=
  if optId ∈ cat.options then
    ((cat.optionRedFlagMap.filter (fun p => p.1 == optId)).map
      (fun p => p.2)).toFinset
  else ∅

/-- The red-flag matching loop of `patient_form` (alerts/views.py lines
150-163): one accumulating Python `set`, updated per visited option of each
question's truthy recorded value. -/
def redFlagIds (cat : Catalog) (questions : List Question)
    (answers : AnswerMap) : Finset String :=
  questions.foldl
    (fun acc q =>
      let value := (dictGet answers q.question_id).getD .vnone
      if truthy value then
        (selectedOptions value).foldl (fun a o => a ∪ optionFlags cat o) acc
      else acc)
    ∅

section Lemmas

theorem dictGet_map_update_self (m : AnswerMap) (k : String) (v : PyVal) :
    dictGet (m.map (fun p => if p.1 = k then (k, v) else p)) k =
      (dictGet m k).map (fun _ => v) := by
  induction m with
  | nil => rfl
  | cons a t ih =>
    by_cases h : a.1 = k
    · simp [dictGet, h]
    · simp [dictGet, h, ih]

theorem dictGet_map_update_ne (m : AnswerMap) (k k' : String) (v : PyVal)
    (h : k' ≠ k) :
    dictGet (m.map (fun p => if p.1 = k then (k, v) else p)) k' =
      dictGet m k' := by
  induction m with
  | nil => rfl
  | cons a t ih =>
    by_cases hak : a.1 = k
    · have hne : ¬(k = k') := fun hh => h hh.symm
      simp [dictGet, hak, hne, ih]
    · by_cases hk' : a.1 = k'
      · simp [dictGet, hak, hk', h]
      · simp [dictGet, hak, hk', ih]

theorem dictGet_append_single_self (m : AnswerMap) (k : String) (v : PyVal)
    (h : dictGet m k = none) : dictGet (m ++ [(k, v)]) k = some v := by
  induction m with
  | nil => simp [dictGet]
  | cons a t ih =>
    by_cases hak : a.1 = k
    · simp [dictGet, hak] at h
    · simp only [dictGet, hak, if_false] at h
      simpa [dictGet, hak] using ih h

theorem dictGet_append_single_ne (m : AnswerMap) (k k' : String) (v : PyVal)
    (h : k' ≠ k) : dictGet (m ++ [(k, v)]) k' = dictGet m k' := by
  induction m with
  | nil =>
    have hne : ¬(k = k') := fun hh => h hh.symm
    simp [dictGet, hne]
  | cons a t ih =>
    by_cases hak : a.1 = k'
    · simp [dictGet, hak]
    · simp [dictGet, hak, ih]

/-- Reading back a key after a Python dict assignment. -/
theorem dictGet_dictSet (m : AnswerMap) (k k' : String) (v : PyVal) :
    dictGet (dictSet m k v) k' = if k' = k then some v else dictGet m k' := by
  unfold dictSet
  by_cases hmem : (dictGet m k).isSome
  · rw [if_pos hmem]
    by_cases hk : k' = k
    · subst hk
      rw [if_pos rfl, dictGet_map_update_self]
      rcases hdg : dictGet m k' with _ | p
      · rw [hdg] at hmem
        cases hmem
      · rfl
    · rw [if_neg hk, dictGet_map_update_ne m k k' v hk]
  · rw [if_neg hmem]
    by_cases hk : k' = k
    · subst hk
      rw [if_pos rfl]
      exact dictGet_append_single_self m k' v (by
        rcases hdg : dictGet m k' with _ | p
        · rfl
        · rw [hdg] at hmem
          exact absurd rfl hmem)
    · rw [if_neg hk]
      exact dictGet_append_single_ne m k k' v hk

theorem contains_eq_true_iff (l : List String) (a : String) :
    l.contains a = true ↔ a ∈ l := by
  simp [List.contains]

/-- Membership in the flags contributed by a single candidate option id:
only ids that resolve to an existing `QuestionOption` contribute, and they
contribute exactly their `OptionRedFlagMap` rows. -/
theorem mem_optionFlags (cat : Catalog) (o rf : String) :
    rf ∈ optionFlags cat o ↔
      o ∈ cat.options ∧ (o, rf) ∈ cat.optionRedFlagMap := by
  unfold optionFlags
  by_cases ho : o ∈ cat.options
  · rw [if_pos ho]
    simp only [List.mem_toFinset, List.mem_map, List.mem_filter, beq_iff_eq,
      ho, true_and]
    constructor
    · rintro ⟨⟨a, b⟩, ⟨hab, rfl⟩, rfl⟩
      simpa using hab
    · intro h
      exact ⟨(o, rf), ⟨h, rfl⟩, rfl⟩
  · rw [if_neg ho]
    simp [ho]

theorem foldl_union_optionFlags_mem (cat : Catalog) (l : List String)
    (acc : Finset String) (rf : String) :
    rf ∈ l.foldl (fun a o => a ∪ optionFlags cat o) acc ↔
      rf ∈ acc ∨ ∃ o ∈ l, rf ∈ optionFlags cat o := by
  induction l generalizing acc with
  | nil => simp
  | cons o t ih =>
    simp only [List.foldl_cons, ih, Finset.mem_union, List.mem_cons]
    constructor
    · rintro ((h | h) | ⟨o', ho', h⟩)
      · exact Or.inl h
      · exact Or.inr ⟨o, Or.inl rfl, h⟩
      · exact Or.inr ⟨o', Or.inr ho', h⟩
    · rintro (h | ⟨o', ho' | ho', h⟩)
      · exact Or.inl (Or.inl h)
      · exact Or.inl (Or.inr (ho' ▸ h))
      · exact Or.inr ⟨o', ho', h⟩

/-- Membership characterization of the red-flag matching loop: a flag is
triggered iff some question's recorded value is truthy and one of its
candidate option ids resolves to an existing option that is mapped to the
flag. -/
theorem mem_redFlagIds (cat : Catalog) (qs : List Question) (ans : AnswerMap)
    (rf : String) :
    rf ∈ redFlagIds cat qs ans ↔
      ∃ q ∈ qs, ∃ v, dictGet ans q.question_id = some v ∧ truthy v ∧
        ∃ o ∈ selectedOptions v, o ∈ cat.options ∧
          (o, rf) ∈ cat.optionRedFlagMap := by
  have main : ∀ (qs : List Question) (acc : Finset String),
      rf ∈ qs.foldl
        (fun acc q =>
          let value := (dictGet ans q.question_id).getD .vnone
          if truthy value then
            (selectedOptions value).foldl (fun a o => a ∪ optionFlags cat o) acc
          else acc) acc ↔
      rf ∈ acc ∨ ∃ q ∈ qs, ∃ v, dictGet ans q.question_id = some v ∧
        truthy v ∧ ∃ o ∈ selectedOptions v, o ∈ cat.options ∧
          (o, rf) ∈ cat.optionRedFlagMap := by
    intro qs
    induction qs with
    | nil => simp
    | cons q t ih =>
      intro acc
      simp only [List.foldl_cons, List.mem_cons]
      cases hv : dictGet ans q.question_id with
      | none =>
        simp only [hv, Option.getD_none]
        rw [show truthy .vnone = false from rfl]
        simp only [Bool.false_eq_true, if_false, ih]
        constructor
        · rintro (h | ⟨q', hq', rest⟩)
          · exact Or.inl h
          · exact Or.inr ⟨q', Or.inr hq', rest⟩
        · rintro (h | ⟨q', hq' | hq', v, hv', rest⟩)
          · exact Or.inl h
          · exact absurd hv' (by rw [hq', hv]; simp)
          · exact Or.inr ⟨q', hq', v, hv', rest⟩
      | some v =>
        simp only [hv, Option.getD_some]
        by_cases ht : truthy v
        · simp only [ht, if_true, foldl_union_optionFlags_mem, ih]
          constructor
          · rintro ((h | h) | ⟨q', hq', rest⟩)
            · exact Or.inl h
            · refine Or.inr ⟨q, Or.inl rfl, v, hv, ht, ?_⟩
              obtain ⟨o, ho, hf⟩ := h
              exact ⟨o, ho, (mem_optionFlags cat o rf).mp hf⟩
            · exact Or.inr ⟨q', Or.inr hq', rest⟩
          · rintro (h | ⟨q', hq' | hq', v', hv', ht', o, ho, hres⟩)
            · exact Or.inl (Or.inl h)
            · refine Or.inl (Or.inr ?_)
              rw [hq', hv] at hv'
              cases hv'
              exact ⟨o, ho, (mem_optionFlags cat o rf).mpr hres⟩
            · exact Or.inr ⟨q', hq', v', hv', ht', o, ho, hres⟩
        · simp only [ht, if_false, ih]
          constructor
          · rintro (h | ⟨q', hq', rest⟩)
            · exact Or.inl h
            · exact Or.inr ⟨q', Or.inr hq', rest⟩
          · rintro (h | ⟨q', hq' | hq', v', hv', ht', rest⟩)
            · exact Or.inl h
            · rw [hq', hv] at hv'
              cases hv'
              exact absurd ht' ht
            · exact Or.inr ⟨q', hq', v', hv', ht', rest⟩
  have := main qs ∅
  simpa [redFlagIds] using this

theorem perm_isEmpty_eq {l l' : List String} (h : l.Perm l') :
    l.isEmpty = l'.isEmpty := by
  have := h.length_eq
  cases l <;> cases l' <;> simp_all

theorem any_contains_eq_decide (l c : List String) :
    (l.any fun o => c.contains o) = decide (∃ o ∈ l, o ∈ c) := by
  cases h : decide (∃ o ∈ l, o ∈ c) with
  | false =>
    rw [decide_eq_false_iff_not] at h
    rw [List.any_eq_false]
    intro o ho hc
    exact h ⟨o, ho, (contains_eq_true_iff _ _).mp hc⟩
  | true =>
    rw [decide_eq_true_eq] at h
    obtain ⟨o, ho, hc⟩ := h
    rw [List.any_eq_true]
    exact ⟨o, ho, (contains_eq_true_iff _ _).mpr hc⟩

end Lemmas

/-- C1 (counterexample): the claim fails on the code as stated.  First, when
the parent's recorded answer is Python `None` — exactly what the POST loop
records for an unanswered select question — `_question_conditions_met`
raises `TypeError` instead of reporting the question inactive.  Second, an
empty-string parent answer is normalized to `[""]` and can match an
empty-string trigger id, so "inactive when the answer is empty" also fails
in that corner. -/
theorem question_visibility_counterexample :
    question_conditions_met ⟨"c", "select", some "p", false, ["o2"], []⟩
      [("p", PyVal.vnone)] = .error .typeError ∧
    question_conditions_met ⟨"d", "select", some "p", false, [""], []⟩
      [("p", PyVal.vstr "")] = .ok true := by
  exact ⟨rfl, rfl⟩

/-- C1 (amended): a question with no parent, or with no condition rows, is
always active; otherwise the question is active iff the parent's recorded
answer, normalized to a list, intersects the trigger-option ids, where an
absent parent key reads as the empty list (inactive) and a string answer as
the one-element list; a `None` parent answer raises `TypeError` instead of
yielding inactive. -/
theorem question_visibility_amended (q : Question) (ans : AnswerMap) :
    (q.parent_question = none → question_conditions_met q ans = .ok true) ∧
    (q.conditions = [] → question_conditions_met q ans = .ok true) ∧
    (∀ pid, q.parent_question = some pid → q.conditions ≠ [] →
      ((dictGet ans pid = none → question_conditions_met q ans = .ok false) ∧
       (∀ l, dictGet ans pid = some (.vlist l) →
          question_conditions_met q ans =
            .ok (decide (∃ o ∈ l, o ∈ q.conditions))) ∧
       (∀ s, dictGet ans pid = some (.vstr s) →
          question_conditions_met q ans = .ok (decide (s ∈ q.conditions))) ∧
       (dictGet ans pid = some .vnone →
          question_conditions_met q ans = .error .typeError))) := by
  refine ⟨?_, ?_, ?_⟩
  · intro h
    unfold question_conditions_met
    rw [h]
  · intro h
    unfold question_conditions_met
    cases hp : q.parent_question with
    | none => rfl
    | some pid => rw [h]; rfl
  · intro pid hp hc
    have hne : q.conditions.isEmpty = false := by
      cases hcs : q.conditions with
      | nil => exact absurd hcs hc
      | cons a t => rfl
    refine ⟨?_, ?_, ?_, ?_⟩
    · intro hdg
      unfold question_conditions_met
      rw [hp]
      simp [hne, hdg]
    · intro l hdg
      unfold question_conditions_met
      rw [hp]
      simp only [hne, hdg, Bool.false_eq_true, if_false, Option.getD_some]
      rw [any_contains_eq_decide]
    · intro s hdg
      unfold question_conditions_met
      rw [hp]
      simp only [hne, hdg, Bool.false_eq_true, if_false, Option.getD_some]
      rw [any_contains_eq_decide]
      congr 1
      rw [decide_eq_decide]
      simp
    · intro hdg
      unfold question_conditions_met
      rw [hp]
      simp [hne, hdg]

/-- C1 (witness): the amended visibility rules evaluated at concrete
questions and answer maps. -/
theorem question_visibility_amended_witness :
    question_conditions_met ⟨"a", "select", none, false, ["o"], []⟩ []
      = .ok true ∧
    question_conditions_met ⟨"b", "select", some "p", false, ["o2"], []⟩
      [("p", PyVal.vstr "o2")] = .ok true ∧
    question_conditions_met ⟨"b", "select", some "p", false, ["o2"], []⟩ []
      = .ok false := by
  refine ⟨(question_visibility_amended _ _).1 rfl, ?_, ?_⟩
  · have h := (question_visibility_amended
      ⟨"b", "select", some "p", false, ["o2"], []⟩
      [("p", PyVal.vstr "o2")]).2.2 "p" rfl (by decide)
    have h2 := h.2.2.1 "o2" (by decide)
    simpa using h2
  · have h := (question_visibility_amended
      ⟨"b", "select", some "p", false, ["o2"], []⟩ []).2.2 "p" rfl (by decide)
    exact h.1 rfl

/-- C2: red-flag matching is set-based — the triggered set is invariant
under permuting the questions visited and under permuting the selected
options inside a recorded multi-select value, and every triggered flag
appears with multiplicity exactly one. -/
theorem redflag_matching_set_semantics (cat : Catalog)
    (qs qs' : List Question) (ans : AnswerMap) (qid : String)
    (l l' : List String) (hq : qs.Perm qs') (hl : l.Perm l') :
    redFlagIds cat qs ans = redFlagIds cat qs' ans ∧
    redFlagIds cat qs (dictSet ans qid (.vlist l)) =
      redFlagIds cat qs (dictSet ans qid (.vlist l')) ∧
    (∀ rf, rf ∈ redFlagIds cat qs ans →
      Multiset.count rf (redFlagIds cat qs ans).val = 1) := by
  refine ⟨?_, ?_, ?_⟩
  · ext rf
    simp only [mem_redFlagIds, hq.mem_iff]
  · ext rf
    simp only [mem_redFlagIds, dictGet_dictSet]
    constructor
    · rintro ⟨q, hqm, v, hv, ht, o, ho, hres⟩
      by_cases hqq : q.question_id = qid
      · rw [if_pos hqq] at hv
        simp only [Option.some.injEq] at hv
        subst hv
        refine ⟨q, hqm, .vlist l', by rw [if_pos hqq], ?_, o,
          hl.mem_iff.mp ho, hres⟩
        simpa [truthy, perm_isEmpty_eq hl] using ht
      · rw [if_neg hqq] at hv
        exact ⟨q, hqm, v, by rw [if_neg hqq]; exact hv, ht, o, ho, hres⟩
    · rintro ⟨q, hqm, v, hv, ht, o, ho, hres⟩
      by_cases hqq : q.question_id = qid
      · rw [if_pos hqq] at hv
        simp only [Option.some.injEq] at hv
        subst hv
        refine ⟨q, hqm, .vlist l, by rw [if_pos hqq], ?_, o,
          hl.mem_iff.mpr ho, hres⟩
        simpa [truthy, perm_isEmpty_eq hl] using ht
      · rw [if_neg hqq] at hv
        exact ⟨q, hqm, v, by rw [if_neg hqq]; exact hv, ht, o, ho, hres⟩
  · intro rf hrf
    exact Multiset.count_eq_one_of_mem (redFlagIds cat qs ans).nodup
      (Finset.mem_def.mp hrf)

/-- C2 (witness): set semantics evaluated on a concrete two-question form
where two different selected options map to the same red flag. -/
theorem redflag_matching_set_semantics_witness :
    ([("q1", PyVal.vstr "o1"), ("q2", PyVal.vlist ["o2", "o1"])] :
        AnswerMap) = [("q1", PyVal.vstr "o1"), ("q2", PyVal.vlist ["o2", "o1"])] ∧
    (redFlagIds ⟨["o1", "o2"], [("o1", "r1"), ("o2", "r1")]⟩
        [⟨"q1", "select", none, false, [], []⟩,
         ⟨"q2", "multi_select", none, false, [], []⟩]
        [("q1", PyVal.vstr "o1"), ("q2", PyVal.vlist ["o2", "o1"])] =
      redFlagIds ⟨["o1", "o2"], [("o1", "r1"), ("o2", "r1")]⟩
        [⟨"q2", "multi_select", none, false, [], []⟩,
         ⟨"q1", "select", none, false, [], []⟩]
        [("q1", PyVal.vstr "o1"), ("q2", PyVal.vlist ["o2", "o1"])] ∧
      redFlagIds ⟨["o1", "o2"], [("o1", "r1"), ("o2", "r1")]⟩
        [⟨"q1", "select", none, false, [], []⟩,
         ⟨"q2", "multi_select", none, false, [], []⟩]
        (dictSet [("q1", PyVal.vstr "o1"), ("q2", PyVal.vlist ["o2", "o1"])]
          "q2" (.vlist ["o2", "o1"])) =
      redFlagIds ⟨["o1", "o2"], [("o1", "r1"), ("o2", "r1")]⟩
        [⟨"q1", "select", none, false, [], []⟩,
         ⟨"q2", "multi_select", none, false, [], []⟩]
        (dictSet [("q1", PyVal.vstr "o1"), ("q2", PyVal.vlist ["o2", "o1"])]
          "q2" (.vlist ["o1", "o2"])) ∧
      (∀ rf, rf ∈ redFlagIds ⟨["o1", "o2"], [("o1", "r1"), ("o2", "r1")]⟩
        [⟨"q1", "select", none, false, [], []⟩,
         ⟨"q2", "multi_select", none, false, [], []⟩]
        [("q1", PyVal.vstr "o1"), ("q2", PyVal.vlist ["o2", "o1"])] →
        Multiset.count rf (redFlagIds ⟨["o1", "o2"], [("o1", "r1"), ("o2", "r1")]⟩
          [⟨"q1", "select", none, false, [], []⟩,
           ⟨"q2", "multi_select", none, false, [], []⟩]
          [("q1", PyVal.vstr "o1"), ("q2", PyVal.vlist ["o2", "o1"])]).val = 1)) :=
  ⟨rfl, redflag_matching_set_semantics _ _ _ _ _ _ _
    (List.Perm.swap _ _ _) (List.Perm.swap _ _ _)⟩

/-- C8: catalog-drift tolerance — a selected option id that resolves to no
existing `QuestionOption` contributes no flags and raises no error: the
triggered set is characterized by the resolvable options alone, and
dropping an unresolvable id from a recorded value leaves the set
unchanged. -/
theorem stale_option_ids_are_skipped (cat : Catalog) (qs : List Question)
    (ans : AnswerMap) (o : String) (ho : o ∉ cat.options) :
    optionFlags cat o = ∅ ∧
    (∀ rf, rf ∈ redFlagIds cat qs ans ↔
      ∃ q ∈ qs, ∃ v, dictGet ans q.question_id = some v ∧ truthy v ∧
        ∃ o' ∈ selectedOptions v, o' ∈ cat.options ∧
          (o', rf) ∈ cat.optionRedFlagMap) ∧
    (∀ qid l, redFlagIds cat qs (dictSet ans qid (.vlist (o :: l))) =
      redFlagIds cat qs (dictSet ans qid (.vlist l))) := by
  refine ⟨?_, fun rf => mem_redFlagIds cat qs ans rf, ?_⟩
  · unfold optionFlags
    rw [if_neg ho]
  · intro qid l
    ext rf
    simp only [mem_redFlagIds, dictGet_dictSet]
    constructor
    · rintro ⟨q, hqm, v, hv, ht, o', ho', hres⟩
      by_cases hqq : q.question_id = qid
      · rw [if_pos hqq] at hv
        simp only [Option.some.injEq] at hv
        subst hv
        rcases List.mem_cons.mp ho' with rfl | ho'
        · exact absurd hres.1 ho
        · have hl : l ≠ [] := List.ne_nil_of_mem ho'
          refine ⟨q, hqm, .vlist l, by rw [if_pos hqq], ?_, o', ho', hres⟩
          simp [truthy, hl]
      · rw [if_neg hqq] at hv
        exact ⟨q, hqm, v, by rw [if_neg hqq]; exact hv, ht, o', ho', hres⟩
    · rintro ⟨q, hqm, v, hv, ht, o', ho', hres⟩
      by_cases hqq : q.question_id = qid
      · rw [if_pos hqq] at hv
        simp only [Option.some.injEq] at hv
        subst hv
        refine ⟨q, hqm, .vlist (o :: l), by rw [if_pos hqq], ?_, o',
          List.mem_cons_of_mem o ho', hres⟩
        simp [truthy]
      · rw [if_neg hqq] at hv
        exact ⟨q, hqm, v, by rw [if_neg hqq]; exact hv, ht, o', ho', hres⟩

/-- C8 (witness): a stale id ("gone") next to a resolvable id ("o1") in a
concrete multi-select answer. -/
theorem stale_option_ids_are_skipped_witness :
    ("gone" ∉ (⟨["o1"], [("o1", "r1")]⟩ : Catalog).options) ∧
    (optionFlags ⟨["o1"], [("o1", "r1")]⟩ "gone" = ∅ ∧
     (∀ rf, rf ∈ redFlagIds ⟨["o1"], [("o1", "r1")]⟩
        [⟨"q1", "multi_select", none, false, [], []⟩]
        [("q1", PyVal.vlist ["gone", "o1"])] ↔
       ∃ q ∈ [(⟨"q1", "multi_select", none, false, [], []⟩ : Question)],
         ∃ v, dictGet [("q1", PyVal.vlist ["gone", "o1"])] q.question_id =
             some v ∧ truthy v ∧
           ∃ o' ∈ selectedOptions v,
             o' ∈ (⟨["o1"], [("o1", "r1")]⟩ : Catalog).options ∧
             (o', rf) ∈ (⟨["o1"], [("o1", "r1")]⟩ : Catalog).optionRedFlagMap) ∧
     (∀ qid l, redFlagIds ⟨["o1"], [("o1", "r1")]⟩
        [⟨"q1", "multi_select", none, false, [], []⟩]
        (dictSet [("q1", PyVal.vlist ["gone", "o1"])] qid
          (.vlist ("gone" :: l))) =
      redFlagIds ⟨["o1"], [("o1", "r1")]⟩
        [⟨"q1", "multi_select", none, false, [], []⟩]
        (dictSet [("q1", PyVal.vlist ["gone", "o1"])] qid (.vlist l)))) :=
  ⟨by decide, stale_option_ids_are_skipped _ _ _ _ (by decide)⟩

/-- C10: matching iterates only over question ids — a recorded free-text
string that happens to equal an existing mapped option id triggers that
option's flags, while writing any value under a companion
"<question_id>_text" key that is not itself some question's id leaves the
triggered set unchanged. -/
theorem text_values_match_and_companion_keys_ignored (cat : Catalog)
    (qs : List Question) (ans : AnswerMap) (q : Question) (s rf : String)
    (hq : q ∈ qs) (hqtype : q.question_type = "text")
    (hval : dictGet ans q.question_id = some (.vstr s)) (hs : s ≠ "")
    (hopt : s ∈ cat.options) (hmap : (s, rf) ∈ cat.optionRedFlagMap) :
    rf ∈ redFlagIds cat qs ans ∧
    (∀ qid v, (∀ q' ∈ qs, q'.question_id ≠ qid ++ "_text") →
      redFlagIds cat qs (dictSet ans (qid ++ "_text") v) =
        redFlagIds cat qs ans) := by
  constructor
  · refine (mem_redFlagIds cat qs ans rf).mpr
      ⟨q, hq, .vstr s, hval, ?_, s, List.mem_singleton.mpr rfl, hopt, hmap⟩
    have hse : s.isEmpty = false := by
      cases hb : s.isEmpty
      · rfl
      · exact absurd ((String.isEmpty_iff s).mp (by simp [hb])) hs
    simp [truthy, hse]
  · intro qid v hk
    ext rf'
    simp only [mem_redFlagIds, dictGet_dictSet]
    constructor
    · rintro ⟨q', hq', v', hv', rest⟩
      rw [if_neg (hk q' hq')] at hv'
      exact ⟨q', hq', v', hv', rest⟩
    · rintro ⟨q', hq', v', hv', rest⟩
      exact ⟨q', hq', v', by rw [if_neg (hk q' hq')]; exact hv', rest⟩

/-- C10 (witness): a free-text answer equal to mapped option id "o1"
triggers "r1", and writing under the companion key "q1_text" changes
nothing. -/
theorem text_values_match_witness :
    ((⟨"q1", "text", none, true, [], []⟩ : Question) ∈
      [(⟨"q1", "text", none, true, [], []⟩ : Question)]) ∧
    ("r1" ∈ redFlagIds ⟨["o1"], [("o1", "r1")]⟩
        [⟨"q1", "text", none, true, [], []⟩]
        [("q1", PyVal.vstr "o1"), ("q1_text", PyVal.vstr "note")] ∧
     (∀ qid v, (∀ q' ∈ [(⟨"q1", "text", none, true, [], []⟩ : Question)],
          q'.question_id ≠ qid ++ "_text") →
       redFlagIds ⟨["o1"], [("o1", "r1")]⟩
          [⟨"q1", "text", none, true, [], []⟩]
          (dictSet [("q1", PyVal.vstr "o1"), ("q1_text", PyVal.vstr "note")]
            (qid ++ "_text") v) =
       redFlagIds ⟨["o1"], [("o1", "r1")]⟩
          [⟨"q1", "text", none, true, [], []⟩]
          [("q1", PyVal.vstr "o1"), ("q1_text", PyVal.vstr "note")])) :=
  ⟨by decide, text_values_match_and_companion_keys_ignored
    ⟨["o1"], [("o1", "r1")]⟩ [⟨"q1", "text", none, true, [], []⟩]
    [("q1", PyVal.vstr "o1"), ("q1_text", PyVal.vstr "note")]
    ⟨"q1", "text", none, true, [], []⟩ "o1" "r1"
    (by decide) rfl (by decide) (by decide) (by decide) (by decide)⟩

/-- One row of `RedFlagTranslation` (alerts/models.py): language code plus
the two localized text fields, unique per (red flag, language). -/
structure RedFlagTranslationRow where
  language : String
  patient_response : String
  doctor_at_a_glance : String
  deriving DecidableEq, Repr

/-- A `RedFlag` row from `alerts/models.py` with its related
`RedFlagTranslation` rows. -/
structure RedFlag where
  red_flag_id : String
  default_patient_response : String
  doctor_at_a_glance : String
  translations : List RedFlagTranslationRow
  deriving DecidableEq, Repr

/-- Faithful translation of `_redflag_patient_text` (alerts/views.py lines
95-99): the exact (red flag, requested-language) row's `patient_response`
when `translations.get(language=language)` finds one (unique_together makes
the first match the only match), else — on `DoesNotExist` — the built-in
`default_patient_response`.  No English-language fallback is consulted. -/
def redflag_patient_text (rf : RedFlag) (lang : String) : String :=
  match rf.translations.find? (fun t => t.language == lang) with
  | some t => t.patient_response
  | none => rf.default_patient_response

/-- Faithful translation of `_redflag_doctor_text` (alerts/views.py lines
102-106): exact row's `doctor_at_a_glance`, else the built-in
`doctor_at_a_glance`; again no English tier. -/
def redflag_doctor_text (rf : RedFlag) (lang : String) : String :=
  match rf.translations.find? (fun t => t.language == lang) with
  | some t => t.doctor_at_a_glance
  | none => rf.doctor_at_a_glance

/-- C4 (counterexample): a red flag with an English translation row but no
Hindi row resolves, for requested language "hi", to its built-in default
text, not to the English translation — the middle tier of the claimed
three-tier order is skipped by the code, for both text fields. -/
theorem redflag_text_counterexample :
    redflag_patient_text
      ⟨"rf1", "DEFAULT-P", "DEFAULT-D", [⟨"en", "EN-P", "EN-D"⟩]⟩ "hi" =
        "DEFAULT-P" ∧
    redflag_doctor_text
      ⟨"rf1", "DEFAULT-P", "DEFAULT-D", [⟨"en", "EN-P", "EN-D"⟩]⟩ "hi" =
        "DEFAULT-D" ∧
    (⟨"rf1", "DEFAULT-P", "DEFAULT-D", [⟨"en", "EN-P", "EN-D"⟩]⟩ :
        RedFlag).translations.find? (fun t => t.language == "hi") = none ∧
    (⟨"rf1", "DEFAULT-P", "DEFAULT-D", [⟨"en", "EN-P", "EN-D"⟩]⟩ :
        RedFlag).translations.find? (fun t => t.language == "en") =
      some ⟨"en", "EN-P", "EN-D"⟩ ∧
    ("DEFAULT-P" : String) ≠ "EN-P" ∧ ("DEFAULT-D" : String) ≠ "EN-D" := by
  exact ⟨rfl, rfl, rfl, rfl, by decide, by decide⟩

theorem find?_key_unique {α : Type} (key : α → String) (l : List α) (t : α)
    (lang : String) (hnd : (l.map key).Nodup) (ht : t ∈ l)
    (hl : key t = lang) :
    l.find? (fun x => key x == lang) = some t := by
  induction l with
  | nil => cases ht
  | cons a rest ih =>
    rcases List.mem_cons.mp ht with rfl | ht'
    · have hpos : (key t == lang) = true := by simp [hl]
      rw [List.find?_cons]
      simp [hpos]
    · rcases List.nodup_cons.mp hnd with ⟨hna, hnd'⟩
      have hane : (key a == lang) = false := by
        rw [beq_eq_false_iff_ne]
        intro heq
        apply hna
        rw [List.mem_map]
        exact ⟨t, ht', by rw [hl, heq]⟩
      rw [List.find?_cons]
      simp only [hane]
      exact ih hnd' ht'

/-- C4 (amended): red-flag text resolution is two-tier, applied per field:
for each field the exact (entity, requested-language) translation row is
used when one exists, else the entity's built-in default field
(`default_patient_response` resp. `doctor_at_a_glance`); an
(entity, "en") translation row is never consulted as a middle tier. -/
theorem redflag_text_two_tier (rf : RedFlag) (lang : String)
    (hnd : (rf.translations.map (fun t => t.language)).Nodup) :
    (∀ t ∈ rf.translations, t.language = lang →
      redflag_patient_text rf lang = t.patient_response ∧
      redflag_doctor_text rf lang = t.doctor_at_a_glance) ∧
    ((∀ t ∈ rf.translations, t.language ≠ lang) →
      redflag_patient_text rf lang = rf.default_patient_response ∧
      redflag_doctor_text rf lang = rf.doctor_at_a_glance) := by
  constructor
  · intro t ht hl
    have hfind := find?_key_unique (fun t => t.language) rf.translations t
      lang hnd ht hl
    constructor
    · rw [redflag_patient_text, hfind]
    · rw [redflag_doctor_text, hfind]
  · intro hnone
    have hfind : rf.translations.find? (fun t => t.language == lang) = none := by
      rw [List.find?_eq_none]
      intro t ht hbeq
      exact hnone t ht (beq_iff_eq.mp hbeq)
    constructor
    · rw [redflag_patient_text, hfind]
    · rw [redflag_doctor_text, hfind]

/-- C4 (witness): the two-tier resolution evaluated on concrete red flags —
an exact "en" hit, and a "hi" miss that falls back to the built-in
defaults. -/
theorem redflag_text_two_tier_witness :
    (redflag_patient_text
        ⟨"rf1", "DEF-P", "DEF-D", [⟨"en", "EN-P", "EN-D"⟩]⟩ "en" = "EN-P" ∧
      redflag_doctor_text
        ⟨"rf1", "DEF-P", "DEF-D", [⟨"en", "EN-P", "EN-D"⟩]⟩ "en" = "EN-D") ∧
    (redflag_patient_text
        ⟨"rf1", "DEF-P", "DEF-D", [⟨"en", "EN-P", "EN-D"⟩]⟩ "hi" = "DEF-P" ∧
      redflag_doctor_text
        ⟨"rf1", "DEF-P", "DEF-D", [⟨"en", "EN-P", "EN-D"⟩]⟩ "hi" = "DEF-D") :=
  ⟨(redflag_text_two_tier ⟨"rf1", "DEF-P", "DEF-D", [⟨"en", "EN-P", "EN-D"⟩]⟩
      "en" (by decide)).1 ⟨"en", "EN-P", "EN-D"⟩ (by decide) rfl,
   (redflag_text_two_tier ⟨"rf1", "DEF-P", "DEF-D", [⟨"en", "EN-P", "EN-D"⟩]⟩
      "hi" (by decide)).2 (by decide)⟩

/-- One row of `OptionTranslation` (alerts/models.py). -/
structure OptionTranslationRow where
  language : String
  option_text : String
  deriving DecidableEq, Repr

/-- A `QuestionOption` row from `alerts/models.py` with its related
`OptionTranslation` rows. -/
structure QuestionOption where
  option_id : String
  shows_text_field : Bool
  translations : List OptionTranslationRow
  deriving DecidableEq, Repr

/-- Faithful translation of `_get_question_text` (alerts/views.py lines
80-84): the exact translation row's text, else
`translations.filter(language__code="en").first().question_text` — when no
English row exists, `.first()` is `None` and the attribute access raises
`AttributeError`; there is no raw-identifier placeholder branch. -/
def get_question_text (q : Question) (lang : String) : Except PyErr String :=
  match q.translations.find? (fun t => t.language == lang) with
  | some t => .ok t.question_text
  | none =>
    match (q.translations.filter (fun t => t.language == "en")).head? with
    | some t => .ok t.question_text
    | none => .error .attributeError

/-- Faithful translation of `_option_text` (alerts/views.py lines 87-92):
views.py never imports `OptionTranslation`, so once the exact-language
lookup raises `DoesNotExist`, evaluating the handler clause
`except OptionTranslation.DoesNotExist` raises `NameError`; the written
fallback (English row, else the raw `option_id`) is unreachable. -/
def option_text (o : QuestionOption) (lang : String) : Except PyErr String :=
  match o.translations.find? (fun t => t.language == lang) with
  | some t => .ok t.option_text
  | none => .error .nameError

/-- C9 (code bug): text resolution is not total.  A question with neither a
requested-language row nor an English row crashes with `AttributeError`
instead of returning the raw identifier; an option whose requested-language
row is missing crashes with `NameError` (unimported exception class) even
though an English row exists; only a question's English fallback actually
works. -/
theorem text_resolution_crashes :
    get_question_text ⟨"q1", "text", none, false, [], []⟩ "xx" =
      .error .attributeError ∧
    option_text ⟨"o1", false, [⟨"en", "Yes"⟩]⟩ "xx" = .error .nameError ∧
    get_question_text ⟨"q1", "text", none, false, [], [⟨"en", "Any pain?"⟩]⟩
      "xx" = .ok "Any pain?" ∧
    option_text ⟨"o1", false, [⟨"en", "Yes"⟩]⟩ "en" = .ok "Yes" := by
  exact ⟨rfl, rfl, rfl, rfl⟩

/-- Lowercase hex digits, as Python's `bytes.hex()` and
`secrets.token_hex` produce. -/
def hexDigitChar (n : Nat) : Char := "0123456789abcdef".data.getD n 'x'

/-- The character stream of `bytes.hex()`: two lowercase digits per byte. -/
def hexBytes : List Nat → List Char
  | [] => []
  | b :: t => hexDigitChar (b / 16) :: hexDigitChar (b % 16) :: hexBytes t

/-- Python `bytes.hex()`. -/
def hexEncode (bytes : List Nat) : String := ⟨hexBytes bytes⟩

theorem hexEncode_data (bytes : List Nat) :
    (hexEncode bytes).data = hexBytes bytes := rfl

theorem hexDigitChar_mem (n : Nat) (h : n < 16) :
    hexDigitChar n ∈ "0123456789abcdef".data := by
  interval_cases n <;> decide

theorem hexBytes_length (bytes : List Nat) :
    (hexBytes bytes).length = 2 * bytes.length := by
  induction bytes with
  | nil => rfl
  | cons b t ih => simp [hexBytes, ih]; omega

theorem hexBytes_mem (bytes : List Nat) (hb : ∀ x ∈ bytes, x < 256) :
    ∀ c ∈ hexBytes bytes, c ∈ "0123456789abcdef".data := by
  induction bytes with
  | nil => intro c hc; cases hc
  | cons b t ih =>
    intro c hc
    rcases List.mem_cons.mp hc with rfl | hc'
    · exact hexDigitChar_mem _ (Nat.div_lt_of_lt_mul (hb b (by simp)))
    · rcases List.mem_cons.mp hc' with rfl | hc''
      · exact hexDigitChar_mem _ (Nat.mod_lt _ (by norm_num))
      · exact ih (fun x hx => hb x (List.mem_cons_of_mem b hx)) c hc''

/-- Faithful translation of the `record_id` branch of
`PatientSubmission.save` (alerts/models.py lines 192-195) together with the
database `unique=True` constraint on the column: an empty `record_id` is
assigned `secrets.token_hex(4)` — modelled as the hex encoding of the first
4-byte draw of the entropy stream `draws` — with no check against already
stored ids; `super().save()` then inserts the row, which the unique
constraint rejects with `IntegrityError` when the id is already stored. -/
def patient_submission_save_record_id (existing : List String)
    (current : String) (draws : List (List Nat)) :
    Except PyErr (String × List String) :=
  let rid := if current = "" then hexEncode (draws.headD []) else current
  if rid ∈ existing then .error .integrityError
  else .ok (rid, existing ++ [rid])

/-- C7 (counterexample): with "deadbeef" already stored and the next entropy
draw encoding to "deadbeef", save raises `IntegrityError` — the second
available draw is never consumed, so generation is not retried until a
distinct token is obtained and the collision is not absorbed. -/
theorem record_id_counterexample :
    patient_submission_save_record_id ["deadbeef"] ""
      [[222, 173, 190, 239], [0, 0, 0, 1]] = .error .integrityError := by
  decide

/-- C7 (amended): a save with an empty `record_id` assigns the hex encoding
of a single fresh 4-byte draw — an 8-lowercase-hex-character token — without
consulting existing submissions; if that one token already occurs among the
stored record ids the unique-column insert fails with `IntegrityError`
instead of regenerating, and otherwise the token is stored; a non-empty
`record_id` is kept as is. -/
theorem record_id_generation_amended (existing : List String)
    (draws : List (List Nat)) (b : List Nat) (hd : draws.headD [] = b)
    (hb : b.length = 4) (hbb : ∀ x ∈ b, x < 256) :
    ((hexEncode b).length = 8 ∧
      ∀ c ∈ (hexEncode b).data, c ∈ "0123456789abcdef".data) ∧
    patient_submission_save_record_id existing "" draws =
      (if hexEncode b ∈ existing then .error .integrityError
       else .ok (hexEncode b, existing ++ [hexEncode b])) ∧
    (∀ current, current ≠ "" →
      patient_submission_save_record_id existing current draws =
        (if current ∈ existing then .error .integrityError
         else .ok (current, existing ++ [current]))) := by
  refine ⟨⟨?_, ?_⟩, ?_, ?_⟩
  · rw [hexEncode, String.length_mk, hexBytes_length, hb]
  · exact hexBytes_mem b hbb
  · rw [patient_submission_save_record_id, hd]
    simp
  · intro current hcur
    rw [patient_submission_save_record_id]
    simp only [hcur, if_false]

/-- C7 (witness): the amended record-id behavior on a fresh draw and on a
colliding draw. -/
theorem record_id_generation_amended_witness :
    (((hexEncode [0, 0, 0, 1]).length = 8 ∧
      ∀ c ∈ (hexEncode [0, 0, 0, 1]).data, c ∈ "0123456789abcdef".data) ∧
    patient_submission_save_record_id ["deadbeef"] "" [[0, 0, 0, 1]] =
      (if hexEncode [0, 0, 0, 1] ∈ ["deadbeef"] then .error .integrityError
       else .ok (hexEncode [0, 0, 0, 1], ["deadbeef"] ++ [hexEncode [0, 0, 0, 1]])) ∧
    (∀ current, current ≠ "" →
      patient_submission_save_record_id ["deadbeef"] current [[0, 0, 0, 1]] =
        (if current ∈ ["deadbeef"] then .error .integrityError
         else .ok (current, ["deadbeef"] ++ [current])))) :=
  record_id_generation_amended ["deadbeef"] [[0, 0, 0, 1]] [0, 0, 0, 1]
    rfl rfl (by decide)

/-- Truncation to a 32-bit word. -/
def w32 (n : Nat) : Nat := n % 2 ^ 32

/-- 32-bit right rotation. -/
def rotr32 (n x : Nat) : Nat := ((x >>> n) ||| (x <<< (32 - n))) % 2 ^ 32

/-- The SHA-256 initial hash state (eight 32-bit words). -/
structure Sha256State where
  h0 : Nat
  h1 : Nat
  h2 : Nat
  h3 : Nat
  h4 : Nat
  h5 : Nat
  h6 : Nat
  h7 : Nat
  deriving Repr

def sha256InitState : Sha256State :=
  ⟨1779033703, 3144134277, 1013904242, 2773480762,
   1359893119, 2600822924, 528734635, 1541459225⟩

/-- The 64 SHA-256 round constants (the FIPS 180-4 values, written in
decimal). -/
def sha256K : List Nat :=
  [1116352408, 1899447441, 3049323471, 3921009573, 961987163,
   1508970993, 2453635748, 2870763221, 3624381080, 310598401,
   607225278, 1426881987, 1925078388, 2162078206, 2614888103,
   3248222580, 3835390401, 4022224774, 264347078, 604807628,
   770255983, 1249150122, 1555081692, 1996064986, 2554220882,
   2821834349, 2952996808, 3210313671, 3336571891, 3584528711,
   113926993, 338241895, 666307205, 773529912, 1294757372,
   1396182291, 1695183700, 1986661051, 2177026350, 2456956037,
   2730485921, 2820302411, 3259730800, 3345764771, 3516065817,
   3600352804, 4094571909, 275423344, 430227734, 506948616,
   659060556, 883997877, 958139571, 1322822218, 1537002063,
   1747873779, 1955562222, 2024104815, 2227730452, 2361852424,
   2428436474, 2756734187, 3204031479, 3329325298]

/-- Big-endian 32-bit word from four message bytes. -/
def chunkWord (chunk : List Nat) (i : Nat) : Nat :=
  (chunk.getD (4 * i) 0) <<< 24 ||| (chunk.getD (4 * i + 1) 0) <<< 16 |||
    (chunk.getD (4 * i + 2) 0) <<< 8 ||| chunk.getD (4 * i + 3) 0

def smallSigma0 (x : Nat) : Nat := rotr32 7 x ^^^ rotr32 18 x ^^^ (x >>> 3)

def smallSigma1 (x : Nat) : Nat := rotr32 17 x ^^^ rotr32 19 x ^^^ (x >>> 10)

def bigSigma0 (x : Nat) : Nat := rotr32 2 x ^^^ rotr32 13 x ^^^ rotr32 22 x

def bigSigma1 (x : Nat) : Nat := rotr32 6 x ^^^ rotr32 11 x ^^^ rotr32 25 x

/-- The SHA-256 message schedule over one 64-byte chunk. -/
def msgSchedule (chunk : List Nat) (i : Nat) : Nat :=
  if h : i < 16 then chunkWord chunk i
  else
    w32 (msgSchedule chunk (i - 16) + smallSigma0 (msgSchedule chunk (i - 15)) +
      msgSchedule chunk (i - 7) + smallSigma1 (msgSchedule chunk (i - 2)))
termination_by i
decreasing_by all_goals omega

/-- One SHA-256 compression round. -/
def sha256Round (k wi : Nat) (s : Sha256State) : Sha256State :=
  let t1 := w32 (s.h7 + bigSigma1 s.h4 +
    ((s.h4 &&& s.h5) ^^^ ((s.h4 ^^^ 0xffffffff) &&& s.h6)) + k + wi)
  let t2 := w32 (bigSigma0 s.h0 +
    ((s.h0 &&& s.h1) ^^^ (s.h0 &&& s.h2) ^^^ (s.h1 &&& s.h2)))
  ⟨w32 (t1 + t2), s.h0, s.h1, s.h2, w32 (s.h3 + t1), s.h4, s.h5, s.h6⟩

/-- SHA-256 compression of one 64-byte chunk into the running state. -/
def sha256Compress (st : Sha256State) (chunk : List Nat) : Sha256State :=
  let f := (List.range 64).foldl
    (fun s i => sha256Round (sha256K.getD i 0) (msgSchedule chunk i) s) st
  ⟨w32 (st.h0 + f.h0), w32 (st.h1 + f.h1), w32 (st.h2 + f.h2),
   w32 (st.h3 + f.h3), w32 (st.h4 + f.h4), w32 (st.h5 + f.h5),
   w32 (st.h6 + f.h6), w32 (st.h7 + f.h7)⟩

/-- Big-endian 8-byte encoding of a length in bits. -/
def int64be (n : Nat) : List Nat :=
  [(n >>> 56) % 256, (n >>> 48) % 256, (n >>> 40) % 256, (n >>> 32) % 256,
   (n >>> 24) % 256, (n >>> 16) % 256, (n >>> 8) % 256, n % 256]

/-- Big-endian 4-byte block index, as PBKDF2's INT(i). -/
def int32be (n : Nat) : List Nat :=
  [(n >>> 24) % 256, (n >>> 16) % 256, (n >>> 8) % 256, n % 256]

/-- SHA-256 padding: 0x80, zeros to 56 mod 64, then the bit length. -/
def sha256Pad (msg : List Nat) : List Nat :=
  msg ++ [0x80] ++ List.replicate ((119 - msg.length % 64) % 64) 0 ++
    int64be (8 * msg.length)

/-- Split a byte string into 64-byte chunks. -/
def chunks64 (l : List Nat) : List (List Nat) :=
  if h : l.isEmpty then [] else l.take 64 :: chunks64 (l.drop 64)
termination_by l.length
decreasing_by
  rw [List.length_drop]
  have hne : l ≠ [] := by
    intro hnil
    rw [hnil] at h
    simp at h
  have hpos : 0 < l.length := List.length_pos.mpr hne
  omega

/-- The four big-endian bytes of a 32-bit word. -/
def word4be (x : Nat) : List Nat :=
  [(x >>> 24) % 256, (x >>> 16) % 256, (x >>> 8) % 256, x % 256]

/-- SHA-256 of a byte string (each byte a natural below 256). -/
def sha256 (msg : List Nat) : List Nat :=
  let f := (chunks64 (sha256Pad msg)).foldl sha256Compress sha256InitState
  word4be f.h0 ++ word4be f.h1 ++ word4be f.h2 ++ word4be f.h3 ++
    word4be f.h4 ++ word4be f.h5 ++ word4be f.h6 ++ word4be f.h7

theorem word4be_length (x : Nat) : (word4be x).length = 4 := rfl

theorem word4be_lt (x : Nat) : ∀ b ∈ word4be x, b < 256 := by
  intro b hb
  simp only [word4be, List.mem_cons, List.not_mem_nil, or_false] at hb
  rcases hb with rfl | rfl | rfl | rfl <;> exact Nat.mod_lt _ (by norm_num)

theorem sha256_length (msg : List Nat) : (sha256 msg).length = 32 := by
  simp [sha256, word4be_length]

theorem sha256_lt (msg : List Nat) : ∀ b ∈ sha256 msg, b < 256 := by
  intro b hb
  simp only [sha256, List.mem_append] at hb
  rcases hb with ((((((h | h) | h) | h) | h) | h) | h) | h <;>
    exact word4be_lt _ _ h

/-- HMAC-SHA256 (RFC 2104) with a 64-byte block size, as used by
`hashlib.pbkdf2_hmac("sha256", ...)`. -/
def hmacSha256 (key msg : List Nat) : List Nat :=
  let key1 := if 64 < key.length then sha256 key else key
  let key0 := key1 ++ List.replicate (64 - key1.length) 0
  sha256 ((key0.map (fun b => b ^^^ 0x5c)) ++
    sha256 ((key0.map (fun b => b ^^^ 0x36)) ++ msg))

theorem hmacSha256_length (key msg : List Nat) :
    (hmacSha256 key msg).length = 32 := sha256_length _

theorem hmacSha256_lt (key msg : List Nat) :
    ∀ b ∈ hmacSha256 key msg, b < 256 := sha256_lt _

/-- Pointwise xor of two byte strings (of equal length in all uses). -/
def xorBytes (a b : List Nat) : List Nat :=
  List.zipWith (fun x y => x ^^^ y) a b

theorem xorBytes_length (a b : List Nat) :
    (xorBytes a b).length = min a.length b.length := List.length_zipWith ..

theorem xorBytes_lt (a b : List Nat) (ha : ∀ x ∈ a, x < 256)
    (hb : ∀ x ∈ b, x < 256) : ∀ x ∈ xorBytes a b, x < 256 := by
  induction a generalizing b with
  | nil => intro x hx; cases hx
  | cons p t ih =>
    intro x hx
    cases b with
    | nil => cases hx
    | cons q u =>
      rcases List.mem_cons.mp hx with rfl | hx'
      · have h256 : (256 : Nat) = 2 ^ 8 := by norm_num
        rw [h256]
        exact Nat.xor_lt_two_pow (h256 ▸ ha p (by simp))
          (h256 ▸ hb q (by simp))
      · exact ih u (fun y hy => ha y (List.mem_cons_of_mem p hy))
          (fun y hy => hb y (List.mem_cons_of_mem q hy)) x hx'

/-- The U-chain of one PBKDF2 block: `n` further HMAC iterations, xor-ing
each into the accumulator. -/
def pbkdf2Inner (password u acc : List Nat) : Nat → List Nat
  | 0 => acc
  | n + 1 =>
    let u1 := hmacSha256 password u
    pbkdf2Inner password u1 (xorBytes acc u1) n

theorem pbkdf2Inner_length (password : List Nat) (n : Nat) :
    ∀ u acc : List Nat, acc.length = 32 →
      (pbkdf2Inner password u acc n).length = 32 := by
  induction n with
  | zero => intro u acc h; exact h
  | succ n ih =>
    intro u acc h
    refine ih _ _ ?_
    rw [xorBytes_length, h, hmacSha256_length]
    omega

theorem pbkdf2Inner_lt (password : List Nat) (n : Nat) :
    ∀ u acc : List Nat, (∀ x ∈ acc, x < 256) →
      ∀ x ∈ pbkdf2Inner password u acc n, x < 256 := by
  induction n with
  | zero => intro u acc h; exact h
  | succ n ih =>
    intro u acc h
    exact ih _ _ (xorBytes_lt _ _ h (hmacSha256_lt _ _))

/-- `hashlib.pbkdf2_hmac("sha256", password, salt, iterations, dklen)`:
for each 32-byte block i, U1 = HMAC(password, salt ++ INT(i)) and
U(j+1) = HMAC(password, Uj), the block being U1 xor ... xor U_iterations;
the concatenated blocks are truncated to `dklen` bytes. -/
def pbkdf2HmacSha256 (password salt : List Nat)
    (iterations dklen : Nat) : List Nat :=
  (((List.range ((dklen + 31) / 32)).map (fun i =>
      let u1 := hmacSha256 password (salt ++ int32be (i + 1))
      pbkdf2Inner password u1 u1 (iterations - 1))).flatten).take dklen

theorem pbkdf2HmacSha256_length_16 (password salt : List Nat)
    (iterations : Nat) :
    (pbkdf2HmacSha256 password salt iterations 16).length = 16 := by
  rw [pbkdf2HmacSha256]
  rw [List.length_take]
  have : (List.range ((16 + 31) / 32)) = [0] := rfl
  rw [this]
  simp only [List.map_cons, List.map_nil, List.flatten]
  rw [List.append_nil, pbkdf2Inner_length _ _ _ _ (hmacSha256_length _ _)]
  omega

theorem pbkdf2HmacSha256_lt (password salt : List Nat)
    (iterations dklen : Nat) :
    ∀ x ∈ pbkdf2HmacSha256 password salt iterations dklen, x < 256 := by
  intro x hx
  rw [pbkdf2HmacSha256] at hx
  have hx' := List.mem_of_mem_take hx
  rw [List.mem_flatten] at hx'
  obtain ⟨l, hl, hxl⟩ := hx'
  rw [List.mem_map] at hl
  obtain ⟨i, _, rfl⟩ := hl
  exact pbkdf2Inner_lt _ _ _ _ (hmacSha256_lt _ _) x hxl

/-- Python `str.encode()`: the UTF-8 bytes of a string, as naturals. -/
def strBytes (s : String) : List Nat :=
  (s.data.map (fun c => (String.utf8EncodeChar c).map (fun b => b.toNat))).flatten

/-- Faithful translation of `generate_patient_id` (alerts/models.py lines
201-205): `pbkdf2_hmac("sha256", raw, secret, 100000, dklen=16).hex()` with
`raw = f"{name}:{mobile}".encode()` as the PBKDF2 password and the
deployment setting `settings.PATIENT_ID_SECRET` (here the `secret`
parameter) as the salt. -/
def generate_patient_id (secret name mobile : String) : String :=
  hexEncode (pbkdf2HmacSha256 (strBytes (name ++ ":" ++ mobile))
    (strBytes secret) 100000 16)

/-- C5 (counterexample): the input pairs ("a", "b:c") and ("a:b", "c")
differ in the name (and in the mobile), yet derive the identical patient
id, because the ":" separator is not escaped and both pairs produce the raw
string "a:b:c" — so changing the name (or the mobile) does not always
change the output. -/
theorem patient_id_counterexample :
    ("a" : String) ≠ "a:b" ∧ ("b:c" : String) ≠ "c" ∧
    generate_patient_id "s" "a" "b:c" = generate_patient_id "s" "a:b" "c" := by
  refine ⟨by simp, by simp, ?_⟩
  unfold generate_patient_id
  have h : ("a" ++ ":" ++ "b:c" : String) = "a:b" ++ ":" ++ "c" := rfl
  rw [h]

/-- C5 (amended): patient-id derivation is a deterministic total function —
PBKDF2-HMAC-SHA256 at exactly 100000 iterations with 16-byte output over
the UTF-8 bytes of "{name}:{mobile}" salted with the server secret, hex
encoded — so the result is always a 32-lowercase-hex-character string and
two calls with identical inputs yield the identical string; the output
depends on the inputs only through the combined string "{name}:{mobile}",
so distinct (name, mobile) pairs with the same combined string collide. -/
theorem patient_id_derivation_amended (secret name mobile : String) :
    (generate_patient_id secret name mobile).length = 32 ∧
    (∀ c ∈ (generate_patient_id secret name mobile).data,
      c ∈ "0123456789abcdef".data) ∧
    generate_patient_id secret name mobile =
      generate_patient_id secret name mobile ∧
    (∀ name' mobile', name ++ ":" ++ mobile = name' ++ ":" ++ mobile' →
      generate_patient_id secret name mobile =
        generate_patient_id secret name' mobile') := by
  refine ⟨?_, ?_, rfl, ?_⟩
  · rw [generate_patient_id, hexEncode, String.length_mk, hexBytes_length,
      pbkdf2HmacSha256_length_16]
  · intro c hc
    rw [generate_patient_id, hexEncode_data] at hc
    exact hexBytes_mem _ (pbkdf2HmacSha256_lt _ _ _ _) c hc
  · intro name' mobile' h
    rw [generate_patient_id, generate_patient_id, h]

/-- C5 (witness): the amended derivation applied at concrete inputs,
including the colliding combined string "a:b:c". -/
theorem patient_id_derivation_amended_witness :
    ((generate_patient_id "s" "a" "b:c").length = 32 ∧
      (∀ c ∈ (generate_patient_id "s" "a" "b:c").data,
        c ∈ "0123456789abcdef".data)) ∧
    ("a" ++ ":" ++ "b:c" : String) = "a:b" ++ ":" ++ "c" ∧
    generate_patient_id "s" "a" "b:c" = generate_patient_id "s" "a:b" "c" :=
  ⟨⟨(patient_id_derivation_amended "s" "a" "b:c").1,
    (patient_id_derivation_amended "s" "a" "b:c").2.1⟩,
   rfl,
   (patient_id_derivation_amended "s" "a" "b:c").2.2.2 "a:b" "c" rfl⟩

/-- The persisted content of a `PatientSubmission` row as created by the
POST branch of `patient_form` (record id and timestamps aside): the derived
patient id, the responses dict, and the attached red-flag ids. -/
structure SubmissionRecord where
  patient_id : String
  responses : AnswerMap
  red_flags : List String
  deriving DecidableEq, Repr

/-- Observable effects of the persistence-and-notification tail of
`patient_form` and of `send_redflag_email`. -/
inductive Event where
  | persistSubmission (submission : SubmissionRecord)
  | attachFlags (flags : List String)
  | sinkInvoked (flags : List String)
  | logWarning
  | emailAttempt (toEmail : String) (flags : List String)
  | logInfo
  | logException
  | renderResponse (flags : List String)
  deriving DecidableEq, Repr

/-- Faithful translation of `send_redflag_email` (alerts/email_utils.py
lines 11-35): a missing `SENDGRID_API_KEY` is a logged no-op (warning,
return); otherwise the client construction and `sg.send` run inside
`try/except Exception`, so a SendGrid failure — modelled by `sendFails` —
is logged and swallowed; the function always returns normally (total
return type, no `Except`). -/
def send_redflag_email (apiKey : String) (sendFails : Bool)
    (doctorEmail : String) (flags : List String) : List Event :=
  if apiKey.isEmpty then [.logWarning]
  else if sendFails then [.emailAttempt doctorEmail flags, .logException]
  else [.emailAttempt doctorEmail flags, .logInfo]

/-- The persistence-and-notification tail of the POST branch of
`patient_form` (alerts/views.py lines 150-198): compute the triggered set,
create the submission row, attach the matched flags when non-empty, invoke
`send_redflag_email` when the localized payload is non-empty (which holds
iff the flag set is non-empty, as every id in the set comes from an
`OptionRedFlagMap` row whose `red_flag` foreign key exists), and render the
response page.  Returns the event trace and the created submission. -/
def patient_form_post_tail (cat : Catalog) (questions : List Question)
    (answers : AnswerMap) (patientId : String) (apiKey : String)
    (doctorEmail : String) (sendFails : Bool) :
    List Event × SubmissionRecord :=
  let flags := (redFlagIds cat questions answers).sort (fun a b => a ≤ b)
  let sub : SubmissionRecord := ⟨patientId, answers, flags⟩
  ([Event.persistSubmission sub] ++
    (if flags ≠ [] then [Event.attachFlags flags] else []) ++
    (if flags ≠ [] then
      Event.sinkInvoked flags ::
        send_redflag_email apiKey sendFails doctorEmail flags
     else []) ++
    [Event.renderResponse flags], sub)

theorem sort_eq_nil_iff (s : Finset String) :
    s.sort (fun a b => a ≤ b) = [] ↔ s = ∅ := by
  rw [List.eq_nil_iff_forall_not_mem, Finset.eq_empty_iff_forall_not_mem]
  constructor
  · intro h a ha
    exact h a ((Finset.mem_sort (fun a b => a ≤ b)).mpr ha)
  · intro h a ha
    exact h a ((Finset.mem_sort (fun a b => a ≤ b)).mp ha)

/-- C6: the notification sink is invoked iff the triggered red-flag set is
non-empty; the submission is persisted as the first effect, before any
dispatch; the created submission record is identical for every API-key
configuration and send outcome (notification failure is caught and logged,
never propagated); a missing API key is a logged no-op with no send
attempt; and the response is rendered regardless of the send outcome. -/
theorem notification_isolation (cat : Catalog) (questions : List Question)
    (answers : AnswerMap) (patientId apiKey doctorEmail : String)
    (sendFails : Bool) :
    (∀ apiKey' sendFails',
      (patient_form_post_tail cat questions answers patientId apiKey'
        doctorEmail sendFails').2 =
      (patient_form_post_tail cat questions answers patientId apiKey
        doctorEmail sendFails).2) ∧
    (∃ rest, (patient_form_post_tail cat questions answers patientId apiKey
        doctorEmail sendFails).1 =
      Event.persistSubmission (patient_form_post_tail cat questions answers
        patientId apiKey doctorEmail sendFails).2 :: rest) ∧
    ((Event.sinkInvoked
        ((redFlagIds cat questions answers).sort (fun a b => a ≤ b)) ∈
      (patient_form_post_tail cat questions answers patientId apiKey
        doctorEmail sendFails).1) ↔
      redFlagIds cat questions answers ≠ ∅) ∧
    (apiKey.isEmpty = true → ∀ fl,
      Event.emailAttempt doctorEmail fl ∉
        (patient_form_post_tail cat questions answers patientId apiKey
          doctorEmail sendFails).1) ∧
    (Event.renderResponse
        ((redFlagIds cat questions answers).sort (fun a b => a ≤ b)) ∈
      (patient_form_post_tail cat questions answers patientId apiKey
        doctorEmail sendFails).1) := by
  refine ⟨fun apiKey' sendFails' => rfl, ?_, ?_, ?_, ?_⟩
  · exact ⟨_, rfl⟩
  · simp only [patient_form_post_tail]
    by_cases hfl :
        (redFlagIds cat questions answers).sort (fun a b => a ≤ b) = []
    · rw [if_neg (not_not_intro hfl), if_neg (not_not_intro hfl)]
      constructor
      · intro hmem
        simp at hmem
      · intro hne
        exact absurd ((sort_eq_nil_iff _).mp hfl) hne
    · rw [if_pos hfl, if_pos hfl]
      constructor
      · intro _
        exact fun hempty => hfl ((sort_eq_nil_iff _).mpr hempty)
      · intro _
        exact List.mem_append.mpr (Or.inl (List.mem_append.mpr
          (Or.inr (List.mem_cons_self _ _))))
  · intro hkey fl
    simp only [patient_form_post_tail]
    by_cases hfl :
        (redFlagIds cat questions answers).sort (fun a b => a ≤ b) = []
    · rw [if_neg (not_not_intro hfl), if_neg (not_not_intro hfl)]
      intro hmem
      simp at hmem
    · rw [if_pos hfl, if_pos hfl, send_redflag_email, if_pos hkey]
      intro hmem
      simp at hmem
  · simp only [patient_form_post_tail]
    exact List.mem_append.mpr (Or.inr (List.mem_singleton.mpr rfl))

/-- C6 (witness): notification isolation evaluated on a concrete
one-question form with a triggered flag — once with no API key (logged
no-op, no send attempt) and once with a key (sink invoked since the
triggered set is non-empty). -/
theorem notification_isolation_witness :
    (("" : String).isEmpty = true) ∧
    (∀ fl, Event.emailAttempt "doc@clinic.example" fl ∉
      (patient_form_post_tail ⟨["o1"], [("o1", "r1")]⟩
        [⟨"q1", "select", none, false, [], []⟩]
        [("q1", PyVal.vstr "o1")] "pid" "" "doc@clinic.example" false).1) ∧
    ((Event.sinkInvoked ((redFlagIds ⟨["o1"], [("o1", "r1")]⟩
        [⟨"q1", "select", none, false, [], []⟩]
        [("q1", PyVal.vstr "o1")]).sort (fun a b => a ≤ b)) ∈
      (patient_form_post_tail ⟨["o1"], [("o1", "r1")]⟩
        [⟨"q1", "select", none, false, [], []⟩]
        [("q1", PyVal.vstr "o1")] "pid" "sg-key" "doc@clinic.example"
        true).1) ↔
      redFlagIds ⟨["o1"], [("o1", "r1")]⟩
        [⟨"q1", "select", none, false, [], []⟩]
        [("q1", PyVal.vstr "o1")] ≠ ∅) :=
  ⟨rfl,
   (notification_isolation ⟨["o1"], [("o1", "r1")]⟩
     [⟨"q1", "select", none, false, [], []⟩]
     [("q1", PyVal.vstr "o1")] "pid" "" "doc@clinic.example"
     false).2.2.2.1 rfl,
   (notification_isolation ⟨["o1"], [("o1", "r1")]⟩
     [⟨"q1", "select", none, false, [], []⟩]
     [("q1", PyVal.vstr "o1")] "pid" "sg-key" "doc@clinic.example"
     true).2.2.1⟩

theorem string_append_cancel_left {a b c : String} (h : a ++ b = a ++ c) :
    b = c := by
  apply String.ext
  have hd : a.data ++ b.data = a.data ++ c.data := by
    rw [← String.data_append, ← String.data_append, h]
  exact List.append_cancel_left hd

theorem string_append_cancel_right {a b c : String} (h : a ++ b = c ++ b) :
    a = c := by
  apply String.ext
  have hd : a.data ++ b.data = c.data ++ b.data := by
    rw [← String.data_append, ← String.data_append, h]
  exact List.append_cancel_right hd

/-- A question whose ids are unrelated to `x`'s reads the same POST values
under two submissions that differ only in `x`'s posted values, so one loop
iteration behaves identically. -/
theorem processQuestion_agree (post1 post2 : Post) (x q : Question)
    (acc : AnswerMap)
    (hagree : ∀ k, k ≠ "q_" ++ x.question_id →
      k ≠ "q_" ++ x.question_id ++ "_text" → post1 k = post2 k)
    (h1 : q.question_id ≠ x.question_id)
    (h2 : q.question_id ≠ x.question_id ++ "_text")
    (h3 : x.question_id ≠ q.question_id ++ "_text") :
    processQuestion post1 acc q = processQuestion post2 acc q := by
  have hkey1 : post1 ("q_" ++ q.question_id) = post2 ("q_" ++ q.question_id) := by
    refine hagree _ (fun h => h1 (string_append_cancel_left h)) (fun h => ?_)
    rw [String.append_assoc] at h
    exact h2 (string_append_cancel_left h)
  have hkey2 : post1 ("q_" ++ q.question_id ++ "_text") =
      post2 ("q_" ++ q.question_id ++ "_text") := by
    refine hagree _ (fun h => ?_) (fun h => ?_)
    · rw [String.append_assoc] at h
      exact h3 (string_append_cancel_left h).symm
    · rw [String.append_assoc, String.append_assoc] at h
      exact h1 (string_append_cancel_right
        (string_append_cancel_left h))
  simp only [processQuestion, postGetD, postGet, postGetlist, hkey1, hkey2]

/-- Running the answer loop over questions none of which is id-related to
`x` gives identical results under the two submissions. -/
theorem foldlM_processQuestion_agree (post1 post2 : Post) (x : Question)
    (hagree : ∀ k, k ≠ "q_" ++ x.question_id →
      k ≠ "q_" ++ x.question_id ++ "_text" → post1 k = post2 k)
    (qs : List Question)
    (hqs : ∀ q ∈ qs, q.question_id ≠ x.question_id ∧
      q.question_id ≠ x.question_id ++ "_text" ∧
      x.question_id ≠ q.question_id ++ "_text") :
    ∀ acc, qs.foldlM (processQuestion post1) acc =
      qs.foldlM (processQuestion post2) acc := by
  induction qs with
  | nil => intro acc; rfl
  | cons q t ih =>
    intro acc
    obtain ⟨h1, h2, h3⟩ := hqs q (List.mem_cons_self _ _)
    rw [List.foldlM_cons, List.foldlM_cons,
      processQuestion_agree post1 post2 x q acc hagree h1 h2 h3]
    cases hres : processQuestion post2 acc q with
    | error e => rfl
    | ok acc' =>
      show t.foldlM (processQuestion post1) acc' =
        t.foldlM (processQuestion post2) acc'
      exact ih (fun q' hq' => hqs q' (List.mem_cons_of_mem q hq')) acc'

/-- C3: an inactive question's posted value contributes nothing — two
submissions that differ only at the POST keys of a question `x` whose
visibility conditions fail (given the answers accumulated before it) build
identical answer dicts, hence identical persisted responses and identical
triggered-flag sets.  The hypotheses that question ids are pairwise
distinct and never of the form (other id) ++ "_text" make "the posted value
of x" well-defined: without them x's keys would double as another
question's answer or companion key. -/
theorem inactive_question_value_irrelevant (cat : Catalog)
    (pre suf : List Question) (x : Question) (post1 post2 : Post)
    (hids : ((pre ++ x :: suf).map (fun q => q.question_id)).Nodup)
    (hcomp : ∀ q ∈ pre ++ x :: suf, ∀ q' ∈ pre ++ x :: suf,
      q.question_id ≠ q'.question_id ++ "_text")
    (hagree : ∀ k, k ≠ "q_" ++ x.question_id →
      k ≠ "q_" ++ x.question_id ++ "_text" → post1 k = post2 k)
    (hinactive : ∀ acc, buildAnswers post1 pre = .ok acc →
      question_conditions_met x acc = .ok false) :
    buildAnswers post1 (pre ++ x :: suf) =
      buildAnswers post2 (pre ++ x :: suf) ∧
    (∀ a1 a2, buildAnswers post1 (pre ++ x :: suf) = .ok a1 →
      buildAnswers post2 (pre ++ x :: suf) = .ok a2 →
      a1 = a2 ∧ redFlagIds cat (pre ++ x :: suf) a1 =
        redFlagIds cat (pre ++ x :: suf) a2) := by
  have hxmem : x ∈ pre ++ x :: suf := by
    rw [List.mem_append]
    exact Or.inr (List.mem_cons_self _ _)
  have hside : ∀ q ∈ pre ++ suf, q.question_id ≠ x.question_id ∧
      q.question_id ≠ x.question_id ++ "_text" ∧
      x.question_id ≠ q.question_id ++ "_text" := by
    intro q hq
    have hqmem : q ∈ pre ++ x :: suf := by
      rw [List.mem_append] at hq ⊢
      rcases hq with hq | hq
      · exact Or.inl hq
      · exact Or.inr (List.mem_cons_of_mem x hq)
    refine ⟨?_, hcomp q hqmem x hxmem, hcomp x hxmem q hqmem⟩
    rw [List.map_append, List.map_cons, List.nodup_append] at hids
    obtain ⟨hnd1, hnd2, hdisj⟩ := hids
    rw [List.mem_append] at hq
    rcases hq with hq | hq
    · intro heq
      refine hdisj (List.mem_map_of_mem _ hq) ?_
      rw [heq]
      exact List.mem_cons_self _ _
    · intro heq
      exact (List.nodup_cons.mp hnd2).1
        (heq ▸ List.mem_map_of_mem (fun q => q.question_id) hq)
  have hpre : ∀ q ∈ pre, q.question_id ≠ x.question_id ∧
      q.question_id ≠ x.question_id ++ "_text" ∧
      x.question_id ≠ q.question_id ++ "_text" :=
    fun q hq => hside q (List.mem_append.mpr (Or.inl hq))
  have hsuf : ∀ q ∈ suf, q.question_id ≠ x.question_id ∧
      q.question_id ≠ x.question_id ++ "_text" ∧
      x.question_id ≠ q.question_id ++ "_text" :=
    fun q hq => hside q (List.mem_append.mpr (Or.inr hq))
  have key : buildAnswers post1 (pre ++ x :: suf) =
      buildAnswers post2 (pre ++ x :: suf) := by
    unfold buildAnswers
    rw [List.foldlM_append, List.foldlM_append]
    rw [foldlM_processQuestion_agree post1 post2 x hagree pre hpre []]
    cases hpres : pre.foldlM (processQuestion post2) [] with
    | error e => rfl
    | ok acc =>
      show (x :: suf).foldlM (processQuestion post1) acc =
        (x :: suf).foldlM (processQuestion post2) acc
      have hx : question_conditions_met x acc = .ok false := by
        refine hinactive acc ?_
        unfold buildAnswers
        rw [foldlM_processQuestion_agree post1 post2 x hagree pre hpre []]
        exact hpres
      have hskip : ∀ post : Post, processQuestion post acc x = .ok acc := by
        intro post
        unfold processQuestion
        rw [hx]
        rfl
      rw [List.foldlM_cons, List.foldlM_cons, hskip post1, hskip post2]
      show suf.foldlM (processQuestion post1) acc =
        suf.foldlM (processQuestion post2) acc
      exact foldlM_processQuestion_agree post1 post2 x hagree suf hsuf acc
  refine ⟨key, ?_⟩
  intro a1 a2 h1 h2
  rw [key, h2] at h1
  cases h1
  exact ⟨rfl, rfl⟩

/-- C3 (witness): a three-question form whose middle question "c" is gated
on answer "o2" of parent "p"; the submitted answer "o1" leaves "c"
inactive, and two submissions differing only in the posted value for "c"
("X" versus "Y") build identical answer dicts. -/
theorem inactive_question_value_irrelevant_witness :
    buildAnswers
      (fun k => if k == "q_p" then ["o1"] else if k == "q_c" then ["X"]
        else if k == "q_r" then ["o3"] else [])
      [⟨"p", "select", none, false, [], []⟩,
       ⟨"c", "select", some "p", false, ["o2"], []⟩,
       ⟨"r", "select", none, false, [], []⟩] =
    buildAnswers
      (fun k => if k == "q_p" then ["o1"] else if k == "q_c" then ["Y"]
        else if k == "q_r" then ["o3"] else [])
      [⟨"p", "select", none, false, [], []⟩,
       ⟨"c", "select", some "p", false, ["o2"], []⟩,
       ⟨"r", "select", none, false, [], []⟩] := by
  have h := (inactive_question_value_irrelevant ⟨[], []⟩
    [⟨"p", "select", none, false, [], []⟩]
    [⟨"r", "select", none, false, [], []⟩]
    ⟨"c", "select", some "p", false, ["o2"], []⟩
    (fun k => if k == "q_p" then ["o1"] else if k == "q_c" then ["X"]
      else if k == "q_r" then ["o3"] else [])
    (fun k => if k == "q_p" then ["o1"] else if k == "q_c" then ["Y"]
      else if k == "q_r" then ["o3"] else [])
    (by decide)
    (by decide)
    (by
      intro k hk1 hk2
      by_cases hp : k = "q_p"
      · rw [hp]
        rfl
      · by_cases hr : k = "q_r"
        · rw [hr]
          rfl
        · have hc : ¬(k = "q_c") := by
            intro hkc
            rw [hkc] at hk1
            exact hk1 rfl
          have hp' : (k == "q_p") = false := beq_eq_false_iff_ne.mpr hp
          have hc' : (k == "q_c") = false := beq_eq_false_iff_ne.mpr hc
          have hr' : (k == "q_r") = false := beq_eq_false_iff_ne.mpr hr
          simp only [hp', hc', hr', Bool.false_eq_true, if_false])
    (by
      intro acc hacc
      have heval : buildAnswers
          (fun k => if k == "q_p" then ["o1"] else if k == "q_c" then ["X"]
            else if k == "q_r" then ["o3"] else [])
          [⟨"p", "select", none, false, [], []⟩] =
          .ok [("p", PyVal.vstr "o1")] := rfl
      rw [heval] at hacc
      cases hacc
      rfl)).1
  exact h

end CodexRFA
